import Mathlib

/-
Verification of the checksum benchmark harness (`crc_benchmark.py`).

Shallow embedding conventions:
- A byte buffer is a `List Nat` (each element a byte value; definitions are
  total over arbitrary naturals).
- Python machine integers are `Nat`, with masking written as `% 2 ^ 32`
  where the source writes `& 0xffffffff`.
- Wall-clock readings (`time.time()`) are outside the embedding; where the
  driver consumes elapsed/setup times they appear as explicit rational
  parameters.
- Fallible operations (dict lookup `checksums[variant]`, the driver's
  division by an elapsed time, `crcs[0]` on an empty list) are modelled with
  `Option` / `Except`.
-/

/-! ### Chunking

The source uses the generator `(seq[pos:pos + size] for pos in
range(0, len(seq), size))` both in `chunker` (line 58) and inlined in
`get_checksum` (line 65).  `chunker seq size` below produces the same list of
slices: while the sequence is non-empty it emits the next `size`-byte slice
and recurses on the remainder; `range(0, 0, size)` is empty, so an empty
sequence yields no slices. -/

def chunker (seq : List Nat) (size : Nat) : List (List Nat) :=
  if h : 0 < size ∧ seq ≠ [] then
    seq.take size :: chunker (seq.drop size) size
  else
    []
termination_by seq.length
decreasing_by
  simp only [List.length_drop]
  have h2 : 0 < seq.length := List.length_pos.mpr h.2
  omega

lemma chunker_nil (size : Nat) : chunker [] size = [] := by
  rw [chunker]
  simp

lemma chunker_cons (seq : List Nat) (size : Nat) (hs : 0 < size) (hne : seq ≠ []) :
    chunker seq size = seq.take size :: chunker (seq.drop size) size := by
  rw [chunker]
  simp [hs, hne]

lemma chunker_ne_nil_of_arg_ne_nil (seq : List Nat) (size : Nat) (hs : 0 < size)
    (hne : seq ≠ []) : chunker seq size ≠ [] := by
  rw [chunker_cons seq size hs hne]
  simp

lemma chunker_arg_ne_nil (seq : List Nat) (size : Nat) (h : chunker seq size ≠ []) :
    seq ≠ [] := by
  intro hseq
  rw [hseq, chunker_nil] at h
  exact h rfl

/-- Concatenating the slices recovers the original sequence. -/
lemma chunker_flatten (seq : List Nat) (size : Nat) (hs : 0 < size) :
    (chunker seq size).flatten = seq := by
  suffices H : ∀ (n : Nat) (s : List Nat), s.length ≤ n → (chunker s size).flatten = s from
    H seq.length seq le_rfl
  intro n
  induction n with
  | zero =>
    intro s hlen
    have hs0 : s = [] := List.length_eq_zero.mp (Nat.le_zero.mp hlen)
    rw [hs0, chunker_nil]
    rfl
  | succ n ih =>
    intro s hlen
    by_cases hne : s = []
    · rw [hne, chunker_nil]
      rfl
    · rw [chunker_cons s size hs hne, List.flatten_cons]
      have hlen2 : (s.drop size).length ≤ n := by
        have h2 : 0 < s.length := List.length_pos.mpr hne
        simp only [List.length_drop]
        omega
      rw [ih (s.drop size) hlen2]
      exact List.take_append_drop size s

/-- The i-th slice is exactly the bytes at positions `i * size` through
`i * size + size - 1` (truncated at the end of the buffer): slices are
contiguous, non-overlapping and in ascending position order. -/
lemma chunker_get (size : Nat) (hs : 0 < size) :
    ∀ (seq : List Nat) (i : Nat) (h : i < (chunker seq size).length),
      (chunker seq size)[i] = (seq.drop (i * size)).take size := by
  suffices H : ∀ (n : Nat) (s : List Nat), s.length ≤ n →
      ∀ (i : Nat) (h : i < (chunker s size).length),
        (chunker s size)[i] = (s.drop (i * size)).take size from
    fun seq => H seq.length seq le_rfl
  intro n
  induction n with
  | zero =>
    intro s hlen i h
    have hs0 : s = [] := List.length_eq_zero.mp (Nat.le_zero.mp hlen)
    rw [hs0, chunker_nil] at h
    exact absurd h (by simp)
  | succ n ih =>
    intro s hlen i h
    by_cases hne : s = []
    · rw [hne, chunker_nil] at h
      exact absurd h (by simp)
    · have hcons := chunker_cons s size hs hne
      have hlen2 : (s.drop size).length ≤ n := by
        have hp : 0 < s.length := List.length_pos.mpr hne
        simp only [List.length_drop]
        omega
      match i with
      | 0 =>
        simp only [hcons, List.getElem_cons_zero, Nat.zero_mul, List.drop_zero]
      | Nat.succ j =>
        have h2 : j < (chunker (s.drop size) size).length := by
          rw [hcons] at h
          simpa using h
        have hstep := ih (s.drop size) hlen2 j h2
        simp only [hcons, List.getElem_cons_succ]
        rw [hstep, List.drop_drop, Nat.succ_mul, Nat.add_comm size (j * size)]

/-- Every slice is non-empty and at most `size` bytes long. -/
lemma chunker_mem (size : Nat) (hs : 0 < size) :
    ∀ (seq : List Nat), ∀ c ∈ chunker seq size, c ≠ [] ∧ c.length ≤ size := by
  suffices H : ∀ (n : Nat) (s : List Nat), s.length ≤ n →
      ∀ c ∈ chunker s size, c ≠ [] ∧ c.length ≤ size from
    fun seq => H seq.length seq le_rfl
  intro n
  induction n with
  | zero =>
    intro s hlen c hc
    have hs0 : s = [] := List.length_eq_zero.mp (Nat.le_zero.mp hlen)
    rw [hs0, chunker_nil] at hc
    exact absurd hc (by simp)
  | succ n ih =>
    intro s hlen c hc
    by_cases hne : s = []
    · rw [hne, chunker_nil] at hc
      exact absurd hc (by simp)
    · rw [chunker_cons s size hs hne, List.mem_cons] at hc
      rcases hc with hc | hc
      · subst hc
        constructor
        · simp [List.take_eq_nil_iff, hne]
          omega
        · simp
      · have hlen2 : (s.drop size).length ≤ n := by
          have hp : 0 < s.length := List.length_pos.mpr hne
          simp only [List.length_drop]
          omega
        exact ih (s.drop size) hlen2 c hc

/-- Every slice other than the last has length exactly `size` (only the final
slice may be shorter). -/
lemma chunker_get_length (size : Nat) (hs : 0 < size) :
    ∀ (seq : List Nat) (i : Nat) (h : i + 1 < (chunker seq size).length),
      ((chunker seq size)[i]).length = size := by
  suffices H : ∀ (n : Nat) (s : List Nat), s.length ≤ n →
      ∀ (i : Nat) (h : i + 1 < (chunker s size).length),
        ((chunker s size)[i]).length = size from
    fun seq => H seq.length seq le_rfl
  intro n
  induction n with
  | zero =>
    intro s hlen i h
    have hs0 : s = [] := List.length_eq_zero.mp (Nat.le_zero.mp hlen)
    rw [hs0, chunker_nil] at h
    exact absurd h (by simp)
  | succ n ih =>
    intro s hlen i h
    by_cases hne : s = []
    · rw [hne, chunker_nil] at h
      exact absurd h (by simp)
    · have hcons := chunker_cons s size hs hne
      have hlt1 : 0 < (chunker (s.drop size) size).length := by
        rw [hcons] at h
        simp only [List.length_cons] at h
        omega
      have hlen2 : (s.drop size).length ≤ n := by
        have hp : 0 < s.length := List.length_pos.mpr hne
        simp only [List.length_drop]
        omega
      match i with
      | 0 =>
        have hdrop : s.drop size ≠ [] :=
          chunker_arg_ne_nil _ _ (List.ne_nil_of_length_pos hlt1)
        have hlt : size < s.length := by
          by_contra hge
          exact hdrop (List.drop_eq_nil_of_le (by omega))
        simp only [hcons, List.getElem_cons_zero, List.length_take]
        omega
      | Nat.succ j =>
        have h2 : j + 1 < (chunker (s.drop size) size).length := by
          rw [hcons] at h
          simpa using h
        have hstep := ih (s.drop size) hlen2 j h2
        simp only [hcons, List.getElem_cons_succ]
        exact hstep

/-! ### The registered checksum algorithms

The registry (`checksums`, source lines 44-49) always holds three entries,
all of the shape `checksum_info(name, init, method, final)` with
`init = lambda: 0` and `final = lambda x: x & 0xffffffff`:
- `crc32`  : `binascii.crc32(data, value)`
- `crc32z` : `zlib.crc32(data, value)` (the same CRC-32 function)
- `adler32`: `zlib.adler32(data, value)`
The optional `crc32c` / `xxhash32` entries are absent when their modules are
unavailable (the `try: import` blocks, lines 35-42) and are not modelled.
The library functions themselves are external to the repository; they are
modelled by their standard definitions below. -/

def crc32_poly : Nat := 0xEDB88320

def crc32_mask : Nat := 0xFFFFFFFF

/-- One bit round of the reflected CRC-32 computation. -/
def crc32_round (c : Nat) : Nat :=
  if c % 2 = 1 then (c >>> 1) ^^^ crc32_poly else c >>> 1

/-- Fold one byte into the running (pre/post conditioned) CRC register. -/
def crc32_step (c : Nat) (byte : Nat) : Nat :=
  crc32_round^[8] (c ^^^ byte)

/-- Model of `binascii.crc32(data, value)` / `zlib.crc32(data, value)`:
the standard CRC-32 (polynomial `0xEDB88320`, reflected), conditioned by
xor with `0xFFFFFFFF` before and after the byte fold. -/
def crc32 (data : List Nat) (value : Nat) : Nat :=
  (data.foldl crc32_step (value ^^^ crc32_mask)) ^^^ crc32_mask

lemma xor_mask_cancel (x : Nat) : (x ^^^ crc32_mask) ^^^ crc32_mask = x := by
  rw [Nat.xor_assoc, Nat.xor_self, Nat.xor_zero]

/-- CRC-32 updates compose across chunk boundaries. -/
lemma crc32_append (a b : List Nat) (v : Nat) :
    crc32 b (crc32 a v) = crc32 (a ++ b) v := by
  unfold crc32
  rw [xor_mask_cancel, List.foldl_append]

/-- CRC-32 of an empty chunk leaves the running value unchanged. -/
lemma crc32_nil (v : Nat) : crc32 [] v = v := by
  unfold crc32
  rw [List.foldl_nil]
  exact xor_mask_cancel v

def adler32_mod : Nat := 65521

/-- Fold one byte into the Adler-32 state pair `(s1, s2)`. -/
def adler32_step (p : Nat × Nat) (byte : Nat) : Nat × Nat :=
  ((p.1 + byte) % adler32_mod, (p.2 + (p.1 + byte) % adler32_mod) % adler32_mod)

/-- Split a running value into `(s1, s2)`: arithmetically,
`s1 = value & 0xffff` and `s2 = (value >> 16) & 0xffff`. -/
def adler32_unpack (value : Nat) : Nat × Nat :=
  (value % 65536, value / 65536 % 65536)

/-- Repack the state pair: arithmetically `(s2 << 16) | s1`
(the halves are disjoint, so the or is an addition). -/
def adler32_pack (p : Nat × Nat) : Nat :=
  p.2 * 65536 + p.1

/-- Model of `zlib.adler32(data, value)`. -/
def adler32 (data : List Nat) (value : Nat) : Nat :=
  adler32_pack (data.foldl adler32_step (adler32_unpack value))

lemma adler32_step_lt (p : Nat × Nat) (byte : Nat) :
    (adler32_step p byte).1 < 65536 ∧ (adler32_step p byte).2 < 65536 := by
  unfold adler32_step adler32_mod
  constructor <;> dsimp only <;> omega

lemma adler32_foldl_lt (data : List Nat) : ∀ (p : Nat × Nat), p.1 < 65536 → p.2 < 65536 →
    (data.foldl adler32_step p).1 < 65536 ∧ (data.foldl adler32_step p).2 < 65536 := by
  induction data with
  | nil => intro p h1 h2; exact ⟨h1, h2⟩
  | cons b bs ih =>
    intro p h1 h2
    rw [List.foldl_cons]
    exact ih _ (adler32_step_lt p b).1 (adler32_step_lt p b).2

lemma adler32_unpack_pack (p : Nat × Nat) (h1 : p.1 < 65536) (h2 : p.2 < 65536) :
    adler32_unpack (adler32_pack p) = p := by
  obtain ⟨a, b⟩ := p
  unfold adler32_unpack adler32_pack
  dsimp only at h1 h2 ⊢
  simp only [Prod.mk.injEq]
  constructor <;> omega

lemma adler32_unpack_lt (v : Nat) :
    (adler32_unpack v).1 < 65536 ∧ (adler32_unpack v).2 < 65536 := by
  unfold adler32_unpack
  constructor <;> dsimp only <;> omega

/-- Adler-32 updates compose across chunk boundaries. -/
lemma adler32_append (a b : List Nat) (v : Nat) :
    adler32 b (adler32 a v) = adler32 (a ++ b) v := by
  unfold adler32
  have hf := adler32_foldl_lt a (adler32_unpack v) (adler32_unpack_lt v).1
    (adler32_unpack_lt v).2
  rw [adler32_unpack_pack _ hf.1 hf.2, List.foldl_append]

/-- Adler-32 of an empty chunk starting from the registered initial value 0. -/
lemma adler32_nil_zero : adler32 [] 0 = 0 := by decide

/-! ### The registry and the chunked executor -/

/-- Mirrors `collections.namedtuple('checksum_info', 'name init method final')`.
In the source `init` is a nullary callable producing the fresh running state;
every registered entry uses `lambda: 0`, so it is modelled by the state value
itself.  `method(block, crc)` folds a chunk into the state, `final` extracts
the 32-bit checksum. -/
structure checksum_info where
  name : String
  init : Nat
  method : List Nat → Nat → Nat
  final : Nat → Nat

/-- Registry entry `checksums['crc32']`. -/
def crc32_entry : checksum_info :=
  { name := "crc32 implementation from binascii"
    init := 0
    method := crc32
    final := fun x => x % 2 ^ 32 }

/-- Registry entry `checksums['crc32z']` (zlib computes the same CRC-32). -/
def crc32z_entry : checksum_info :=
  { name := "crc32 implementation from zlib"
    init := 0
    method := crc32
    final := fun x => x % 2 ^ 32 }

/-- Registry entry `checksums['adler32']`. -/
def adler32_entry : checksum_info :=
  { name := "adler32 implementation from zlib"
    init := 0
    method := adler32
    final := fun x => x % 2 ^ 32 }

/-- The registry `checksums` in its (insertion-ordered) iteration order. -/
def checksums : List (String × checksum_info) :=
  [("crc32", crc32_entry), ("crc32z", crc32z_entry), ("adler32", adler32_entry)]

/-- Dict access `checksums[variant]`; `none` models the `KeyError` raised for
an unregistered name. -/
def checksums_lookup (variant : String) : Option checksum_info :=
  (checksums.find? (fun p => p.1 == variant)).map (fun p => p.2)

/-- Mirrors `get_checksum(bufsize, data, variant)` (source lines 61-68): look
the algorithm up, start from `init`, thread the state through one
`crc = crc_method(block, crc)` call per slice, then apply `final` once. -/
def get_checksum (bufsize : Nat) (data : List Nat) (variant : String) : Option Nat :=
  match checksums_lookup variant with
  | none => none
  | some crc_info =>
    some (crc_info.final
      (List.foldl (fun crc block => crc_info.method block crc)
        crc_info.init (chunker data bufsize)))

/-- Mirrors `checksum_data(data, bufsize, variant)` (source lines 70-78):
`bufsize == 0` is the sentinel for a single whole-buffer `update`; otherwise
the chunked path `get_checksum` runs.  The wall-clock `start`/elapsed values
returned by the source are outside the embedding; only the checksum is
modelled. -/
def checksum_data (data : List Nat) (bufsize : Nat) (variant : String) : Option Nat :=
  if bufsize = 0 then
    match checksums_lookup variant with
    | none => none
    | some crc_info => some (crc_info.final (crc_info.method data crc_info.init))
  else
    get_checksum bufsize data variant

/-! ### Chunked and unchunked paths agree for every registered algorithm -/

/-- Threading an associative update through any slice list starting from an
already-updated state is one update over the concatenation. -/
lemma foldl_update_append (f : List Nat → Nat → Nat)
    (hassoc : ∀ (a b : List Nat) (s : Nat), f b (f a s) = f (a ++ b) s) :
    ∀ (L : List (List Nat)) (a : List Nat) (s : Nat),
      List.foldl (fun crc block => f block crc) (f a s) L = f (a ++ L.flatten) s := by
  intro L
  induction L with
  | nil =>
    intro a s
    simp
  | cons x xs ih =>
    intro x0 s
    simp only [List.foldl_cons]
    rw [hassoc x0 x s, ih (x0 ++ x) s, List.flatten_cons, List.append_assoc]

/-- Threading an associative update through the slices of a buffer equals one
update over the whole buffer, provided an empty update fixes the initial
state (only relevant for an empty buffer, which yields no slices). -/
lemma foldl_method_chunker (f : List Nat → Nat → Nat)
    (hassoc : ∀ (a b : List Nat) (s : Nat), f b (f a s) = f (a ++ b) s)
    (init : Nat) (hinit : f [] init = init)
    (size : Nat) (hs : 0 < size) (data : List Nat) :
    List.foldl (fun crc block => f block crc) init (chunker data size) = f data init := by
  by_cases hne : data = []
  · rw [hne, chunker_nil, List.foldl_nil, hinit]
  · rw [chunker_cons data size hs hne]
    simp only [List.foldl_cons]
    rw [foldl_update_append f hassoc (chunker (data.drop size) size) (data.take size) init,
      chunker_flatten (data.drop size) size hs, List.take_append_drop]

/-- For an algorithm with an associative update whose empty update fixes the
initial state, `checksum_data` with a positive chunk size agrees with the
0-sentinel (whole buffer) path. -/
lemma checksum_data_chunked_entry (v : String) (info : checksum_info)
    (hlook : checksums_lookup v = some info)
    (hassoc : ∀ (a b : List Nat) (s : Nat),
      info.method b (info.method a s) = info.method (a ++ b) s)
    (hinit : info.method [] info.init = info.init)
    (C : Nat) (hC : 0 < C) (D : List Nat) :
    checksum_data D C v = checksum_data D 0 v := by
  have h1 : checksum_data D C v = get_checksum C D v := by
    unfold checksum_data
    rw [if_neg (by omega : ¬ C = 0)]
  have h2 : checksum_data D 0 v =
      some (info.final (info.method D info.init)) := by
    unfold checksum_data
    rw [if_pos rfl, hlook]
  have h3 : get_checksum C D v =
      some (info.final (List.foldl (fun crc block => info.method block crc)
        info.init (chunker D C))) := by
    unfold get_checksum
    rw [hlook]
  rw [h1, h3, h2, foldl_method_chunker info.method hassoc info.init hinit C hC D]

lemma checksums_lookup_crc32 : checksums_lookup "crc32" = some crc32_entry := by
  simp [checksums_lookup, checksums]

lemma checksums_lookup_crc32z : checksums_lookup "crc32z" = some crc32z_entry := by
  simp [checksums_lookup, checksums]

lemma checksums_lookup_adler32 : checksums_lookup "adler32" = some adler32_entry := by
  simp [checksums_lookup, checksums]

/-- Every registered algorithm computes the same checksum chunked as
unchunked. -/
lemma checksum_data_chunked (v : String) (info : checksum_info)
    (hmem : (v, info) ∈ checksums) (C : Nat) (hC : 0 < C) (D : List Nat) :
    checksum_data D C v = checksum_data D 0 v := by
  simp only [checksums, List.mem_cons, List.mem_singleton, Prod.mk.injEq,
    List.not_mem_nil, or_false] at hmem
  rcases hmem with ⟨rfl, rfl⟩ | ⟨rfl, rfl⟩ | ⟨rfl, rfl⟩
  · exact checksum_data_chunked_entry _ _ checksums_lookup_crc32
      crc32_append (crc32_nil 0) C hC D
  · exact checksum_data_chunked_entry _ _ checksums_lookup_crc32z
      crc32_append (crc32_nil 0) C hC D
  · exact checksum_data_chunked_entry _ _ checksums_lookup_adler32
      adler32_append adler32_nil_zero C hC D

/-- For an algorithm whose empty update fixes the initial state, both the
chunked and unchunked paths on an empty buffer return `final init`. -/
lemma checksum_data_empty_entry (v : String) (info : checksum_info)
    (hlook : checksums_lookup v = some info)
    (hinit : info.method [] info.init = info.init) (C : Nat) :
    checksum_data [] C v = some (info.final info.init) := by
  by_cases hC : C = 0
  · rw [hC]
    simp only [checksum_data, eq_self_iff_true, if_true, hlook, hinit]
  · simp only [checksum_data, get_checksum, if_neg hC, hlook, chunker_nil,
      List.foldl_nil]

/-- Any lookup that succeeds makes `checksum_data` succeed (no `KeyError`). -/
lemma checksum_data_isSome_entry (v : String) (info : checksum_info)
    (hlook : checksums_lookup v = some info) (D : List Nat) (C : Nat) :
    (checksum_data D C v).isSome = true := by
  by_cases hC : C = 0 <;>
    simp [checksum_data, get_checksum, hlook, hC]

/-- Membership in the registry determines the lookup result. -/
lemma checksums_lookup_of_mem (v : String) (info : checksum_info)
    (hmem : (v, info) ∈ checksums) : checksums_lookup v = some info := by
  simp only [checksums, List.mem_cons, List.mem_singleton, Prod.mk.injEq,
    List.not_mem_nil, or_false] at hmem
  rcases hmem with ⟨rfl, rfl⟩ | ⟨rfl, rfl⟩ | ⟨rfl, rfl⟩ <;> rfl

/-! ### Statistics aggregator

Mirrors `mean_and_stddev(x)` (source lines 91-94).  Python floats are
modelled as reals; `math.sqrt` is `Real.sqrt`. -/

noncomputable def mean_and_stddev (x : List ℝ) : ℝ × ℝ :=
  let mean := x.sum / x.length
  let stddev := Real.sqrt ((x.map (fun s => (s - mean) ^ 2)).sum / x.length)
  (mean, stddev)

/-- Stated from the specification: the arithmetic mean of the samples. -/
noncomputable def spec_mean (samples : List ℝ) : ℝ :=
  samples.sum / samples.length

/-- Stated from the specification: population variance, the sum of squared
deviations divided by N (not N - 1). -/
noncomputable def spec_population_variance (samples : List ℝ) : ℝ :=
  (samples.map (fun s => (s - spec_mean samples) ^ 2)).sum / samples.length

/-- Stated from the specification: population standard deviation. -/
noncomputable def spec_population_stddev (samples : List ℝ) : ℝ :=
  Real.sqrt (spec_population_variance samples)

/-! ### The serial strategy and the benchmark driver

`TaskResult` is the `(crc, start, time.time() - start)` triple returned by
`checksum_data`; the two wall-clock components are explicit rational
parameters of the model.  The driver body for one `(variant, bufsize)`
combination (source lines 147-163) is `process_combination`: its `Except`
value makes the order of the Python exceptions explicit —
`ZeroDivisionError` from `size_mb / t` (line 153) comes before the checksum
consistency check (lines 155-156), which comes before the `IndexError` of
`crcs[0]` on an empty result list (line 157). -/

structure TaskResult where
  crc : Nat
  start : ℚ
  elapsed : ℚ
deriving DecidableEq

inductive BenchError where
  | zeroDivision : BenchError
  | checksumMismatch : String → BenchError
  | indexError : BenchError
deriving DecidableEq

/-- One output row: the values printed at line 163, together with the three
sample lists handed to `mean_and_stddev` (lines 158-160). -/
structure Row where
  variant : String
  crc : Nat
  bufsize : Nat
  times : List ℚ
  setup_times : List ℚ
  speeds : List ℚ
  time_stats : ℝ × ℝ
  setup_stats : ℝ × ℝ
  speed_stats : ℝ × ℝ

def ratsToReals (l : List ℚ) : List ℝ :=
  l.map (fun q => (q : ℝ))

/-- Mirrors `_serial_pool.map(f, iterable)` (lines 96-98):
`[f(i) for i in iterable]`. -/
def serial_pool_map {α : Type} (f : Nat → α) (iterable : List Nat) : List α :=
  iterable.map f

/-- The driver body for one combination.  `crcs.all (x == crcs.headD 0)`
mirrors `all(x == crcs[0] for x in crcs)`: for an empty `crcs` the Python
generator never evaluates `crcs[0]` and `all` is vacuously true, so the
`headD` default is never observed; the subsequent `crc = crcs[0]` (line 157)
is the `IndexError` case. -/
noncomputable def process_combination (size_mb t0 : ℚ) (variant : String) (bufsize : Nat)
    (res : List TaskResult) : Except BenchError Row :=
  let crcs := res.map (fun x => x.crc)
  let setup_times := res.map (fun x => x.start - t0)
  let times := res.map (fun x => x.elapsed)
  if times.any (fun t => decide (t = 0)) then
    Except.error BenchError.zeroDivision
  else
    let speeds := times.map (fun t => size_mb / t)
    if ¬ crcs.all (fun x => x == crcs.headD 0) then
      Except.error (BenchError.checksumMismatch variant)
    else
      match crcs with
      | [] => Except.error BenchError.indexError
      | crc :: _ =>
        Except.ok { variant := variant
                    crc := crc
                    bufsize := bufsize
                    times := times
                    setup_times := setup_times
                    speeds := speeds
                    time_stats := mean_and_stddev (ratsToReals times)
                    setup_stats := mean_and_stddev (ratsToReals setup_times)
                    speed_stats := mean_and_stddev (ratsToReals speeds) }

/-- Chunk-size exponents iterated by the driver:
`list(range(9, 21)) + [0]` (line 141). -/
def bufsize_log2_values : List Nat :=
  List.range' 9 12 ++ [0]

/-- Chunk sizes: `bufsize = 2 ** bufsize_log2 if bufsize_log2 > 0 else 0`
(line 144). -/
def bufsize_values : List Nat :=
  bufsize_log2_values.map (fun k => if k > 0 then 2 ^ k else 0)

/-- The `itertools.product(checksums, list(range(9, 21)) + [0])` iteration
(line 141): the first factor (registry iteration order) is outermost. -/
def benchmark_combinations : List (String × Nat) :=
  (checksums.map (fun p => p.1)).flatMap (fun v => bufsize_values.map (fun b => (v, b)))

/-- The sweep over a combination list: each combination is processed in
order and a raised error propagates, skipping every later combination
(an uncaught Python exception aborts `do_benchmarking`). -/
noncomputable def do_benchmarking_sweep (size_mb t0 : ℚ) (combos : List (String × Nat))
    (results : String → Nat → List TaskResult) : Except BenchError (List Row) :=
  combos.mapM (fun c => process_combination size_mb t0 c.1 c.2 (results c.1 c.2))

/-- Serial-mode results for one combination: the task closure
`lambda _: checksum_data(data, bufsize, variant)` (line 120) mapped by
`pool.map(_checksum_data, range(opts.number_tasks))` (line 149) through
`_serial_pool`.  `range` of a non-positive count is empty, hence `Int.toNat`.
An unregistered variant raises `KeyError` inside the task (`checksum_data`
is `none`); the driver only passes registered variants, where the `getD`
default is unreachable. -/
def serial_run (data : List Nat) (variant : String) (bufsize : Nat)
    (starts elapseds : Nat → ℚ) (number_tasks : Int) : List TaskResult :=
  serial_pool_map
    (fun i => { crc := (checksum_data data bufsize variant).getD 0,
                start := starts i, elapsed := elapseds i })
    (List.range number_tasks.toNat)

/-- Mirrors the argparse handling of the `-n` (`--number-tasks`) option (line 168):
`type=int` with `default=1`.  Nothing in `main` or `do_benchmarking`
validates the parsed value further. -/
def parse_number_tasks (cli : Option Int) : Int :=
  cli.getD 1

/-! ### Behaviour of the driver body and the sweep -/

/-- Any task with elapsed time exactly 0 makes the combination fail with the
division error of `speeds = [size_mb / t for t in times]` (line 153),
regardless of the checksum values. -/
lemma process_combination_zero_time (size_mb t0 : ℚ) (v : String) (b : Nat)
    (res : List TaskResult) (hz : ∃ r ∈ res, r.elapsed = 0) :
    process_combination size_mb t0 v b res = Except.error BenchError.zeroDivision := by
  have hany : (res.map (fun x => x.elapsed)).any (fun t => decide (t = 0)) = true := by
    rcases hz with ⟨r, hr, hrz⟩
    simp only [List.any_eq_true, List.mem_map]
    exact ⟨r.elapsed, ⟨r, hr, rfl⟩, by simp [hrz]⟩
  simp [process_combination, hany]

lemma any_elapsed_zero_false (res : List TaskResult)
    (hnz : ∀ r ∈ res, r.elapsed ≠ 0) :
    (res.map (fun x => x.elapsed)).any (fun t => decide (t = 0)) = false := by
  simp only [List.any_eq_false, List.mem_map]
  rintro t ⟨r, hr, rfl⟩
  simpa using hnz r hr

/-- With all elapsed times non-zero, differing checksums raise the mismatch
exception of lines 155-156. -/
lemma process_combination_mismatch (size_mb t0 : ℚ) (v : String) (b : Nat)
    (res : List TaskResult) (hnz : ∀ r ∈ res, r.elapsed ≠ 0)
    (hneq : ¬ (res.map (fun x => x.crc)).all
      (fun x => x == (res.map (fun x => x.crc)).headD 0)) :
    process_combination size_mb t0 v b res =
      Except.error (BenchError.checksumMismatch v) := by
  have hcond1 : ¬ ((res.map (fun x => x.elapsed)).any (fun t => decide (t = 0)) = true) := by
    rw [any_elapsed_zero_false res hnz]
    simp
  simp only [process_combination]
  rw [if_neg hcond1, if_pos hneq]

/-- An empty result list (0 tasks) passes the vacuous consistency check but
fails at `crc = crcs[0]` (line 157) with an `IndexError`. -/
lemma process_combination_empty (size_mb t0 : ℚ) (v : String) (b : Nat) :
    process_combination size_mb t0 v b [] = Except.error BenchError.indexError := by
  simp [process_combination]

/-- With at least one task, no zero elapsed time and all checksums equal, the
combination succeeds and emits its row. -/
lemma process_combination_ok (size_mb t0 : ℚ) (v : String) (b : Nat)
    (res : List TaskResult) (hne : res ≠ [])
    (hnz : ∀ r ∈ res, r.elapsed ≠ 0)
    (heq : (res.map (fun x => x.crc)).all
      (fun x => x == (res.map (fun x => x.crc)).headD 0)) :
    process_combination size_mb t0 v b res = Except.ok
      { variant := v
        crc := (res.map (fun x => x.crc)).headD 0
        bufsize := b
        times := res.map (fun x => x.elapsed)
        setup_times := res.map (fun x => x.start - t0)
        speeds := (res.map (fun x => x.elapsed)).map (fun t => size_mb / t)
        time_stats := mean_and_stddev (ratsToReals (res.map (fun x => x.elapsed)))
        setup_stats := mean_and_stddev (ratsToReals (res.map (fun x => x.start - t0)))
        speed_stats := mean_and_stddev
          (ratsToReals ((res.map (fun x => x.elapsed)).map (fun t => size_mb / t))) } := by
  rcases res with _ | ⟨r, rs⟩
  · exact absurd rfl hne
  · simp only [process_combination, any_elapsed_zero_false _ hnz, Bool.false_eq_true,
      if_false, List.map_cons, List.headD_cons]
    simp only [List.map_cons, List.headD_cons] at heq
    simp [heq]
    constructor
    · exact hnz r (List.mem_cons_self r rs)
    · intro x hx
      exact hnz x (List.mem_cons_of_mem r hx)

lemma do_benchmarking_sweep_nil (size_mb t0 : ℚ)
    (results : String → Nat → List TaskResult) :
    do_benchmarking_sweep size_mb t0 [] results = Except.ok [] := rfl

/-- A raised error in the current combination aborts the whole remaining
sweep. -/
lemma do_benchmarking_sweep_cons_error (size_mb t0 : ℚ) (c : String × Nat)
    (rest : List (String × Nat)) (results : String → Nat → List TaskResult)
    (e : BenchError)
    (h : process_combination size_mb t0 c.1 c.2 (results c.1 c.2) = Except.error e) :
    do_benchmarking_sweep size_mb t0 (c :: rest) results = Except.error e := by
  unfold do_benchmarking_sweep
  rw [List.mapM_cons, h]
  rfl

/-- A successful combination contributes its row and the sweep continues
with the remaining combinations. -/
lemma do_benchmarking_sweep_cons_ok (size_mb t0 : ℚ) (c : String × Nat)
    (rest : List (String × Nat)) (results : String → Nat → List TaskResult)
    (row : Row)
    (h : process_combination size_mb t0 c.1 c.2 (results c.1 c.2) = Except.ok row) :
    do_benchmarking_sweep size_mb t0 (c :: rest) results =
      (do_benchmarking_sweep size_mb t0 rest results).map (fun rows => row :: rows) := by
  unfold do_benchmarking_sweep
  rw [List.mapM_cons, h]
  cases hrest : rest.mapM
      (fun c => process_combination size_mb t0 c.1 c.2 (results c.1 c.2)) with
  | error e => rfl
  | ok rows => rfl

/-! ### Statistics facts -/

/-- The code computes exactly the spec quantities: arithmetic mean and
population standard deviation. -/
lemma mean_and_stddev_spec (l : List ℝ) :
    mean_and_stddev l = (spec_mean l, spec_population_stddev l) := rfl

lemma mean_and_stddev_singleton (x : ℝ) : mean_and_stddev [x] = (x, 0) := by
  unfold mean_and_stddev
  simp

lemma mean_and_stddev_triple (x : ℝ) : mean_and_stddev [x, x, x] = (x, 0) := by
  unfold mean_and_stddev
  have hm : (([x, x, x] : List ℝ).sum) / (([x, x, x] : List ℝ).length : ℝ) = x := by
    simp
    ring
  rw [hm]
  simp

lemma mean_and_stddev_zero_ten : mean_and_stddev [(0 : ℝ), 10] = (5, 5) := by
  have h25 : Real.sqrt 25 = 5 := by
    rw [show (25 : ℝ) = 5 ^ 2 by norm_num, Real.sqrt_sq (by norm_num : (0 : ℝ) ≤ 5)]
  simp only [mean_and_stddev, List.sum_cons, List.sum_nil, List.map_cons,
    List.map_nil, List.length_cons, List.length_nil]
  norm_num
  exact h25

/-! ### Claim theorems -/

/-- C1: for every registered algorithm A, every chunk size C > 0 and every
input buffer D, the chunked computation returns the same checksum as the
unchunked (sentinel 0) computation: `checksum_data(D, C, A)` equals
`checksum_data(D, 0, A)`.  The registered updates are associative across
chunk boundaries (`crc32_append`, `adler32_append`), which is what the
equality rests on, so the claim holds with its hypothesis discharged. -/
theorem claim_C1_chunked_eq_unchunked (v : String) (info : checksum_info)
    (hmem : (v, info) ∈ checksums) (C : Nat) (hC : 0 < C) (D : List Nat) :
    checksum_data D C v = checksum_data D 0 v :=
  checksum_data_chunked v info hmem C hC D

theorem claim_C1_witness :
    (("crc32", crc32_entry) ∈ checksums ∧ 0 < 2) ∧
    checksum_data [11, 22, 33] 2 "crc32" = checksum_data [11, 22, 33] 0 "crc32" :=
  ⟨⟨List.mem_cons_self _ _, by decide⟩,
    claim_C1_chunked_eq_unchunked "crc32" crc32_entry (List.mem_cons_self _ _) 2
      (by decide) [11, 22, 33]⟩

/-- C2: for the serial strategy, every registered algorithm, every chunk
size, every buffer and every task count N ≥ 1, the N serial tasks produce N
task results whose checksum values are all identical and equal to the
single-task no-chunking reference `checksum_data(D, 0, A)`. -/
theorem claim_C2_serial_tasks_identical (v : String) (info : checksum_info)
    (hmem : (v, info) ∈ checksums) (D : List Nat) (C : Nat) (n : Int)
    (hn : 1 ≤ n) (starts elapseds : Nat → ℚ) :
    ∃ ref : Nat, checksum_data D 0 v = some ref ∧
      (serial_run D v C starts elapseds n).length = n.toNat ∧
      n.toNat ≠ 0 ∧
      ∀ r ∈ serial_run D v C starts elapseds n, r.crc = ref := by
  have hlook := checksums_lookup_of_mem v info hmem
  have hsome : (checksum_data D 0 v).isSome = true :=
    checksum_data_isSome_entry v info hlook D 0
  obtain ⟨ref, href⟩ := Option.isSome_iff_exists.mp hsome
  refine ⟨ref, href, ?_, ?_, ?_⟩
  · simp [serial_run, serial_pool_map]
  · omega
  · intro r hr
    simp only [serial_run, serial_pool_map, List.mem_map] at hr
    obtain ⟨i, hi, hri⟩ := hr
    rw [← hri]
    have hCeq : checksum_data D C v = checksum_data D 0 v := by
      by_cases h0 : C = 0
      · rw [h0]
      · exact checksum_data_chunked v info hmem C (Nat.pos_of_ne_zero h0) D
    simp [hCeq, href]

theorem claim_C2_witness :
    (("adler32", adler32_entry) ∈ checksums ∧ (1 : Int) ≤ 3) ∧
    ∃ ref : Nat, checksum_data [5, 6] 0 "adler32" = some ref ∧
      (serial_run [5, 6] "adler32" 1 (fun _ => 0) (fun _ => 1) 3).length =
        (3 : Int).toNat ∧
      (3 : Int).toNat ≠ 0 ∧
      ∀ r ∈ serial_run [5, 6] "adler32" 1 (fun _ => 0) (fun _ => 1) 3,
        r.crc = ref :=
  ⟨⟨by simp [checksums], by decide⟩,
    claim_C2_serial_tasks_identical "adler32" adler32_entry (by simp [checksums])
      [5, 6] 1 3 (by decide) (fun _ => 0) (fun _ => 1)⟩

/-- C3: when the collected task checksums of a combination are not all equal
(and the collection itself raised no earlier error, i.e. no elapsed time is
zero), the driver raises the fatal mismatch exception, which aborts every
remaining combination of the sweep — it is an error value, never a warning;
when they are all equal the combination succeeds and the sweep continues
with the next combination. -/
theorem claim_C3_mismatch_fatal (size_mb t0 : ℚ) (v : String) (b : Nat)
    (rest : List (String × Nat)) (results : String → Nat → List TaskResult)
    (hnz : ∀ r ∈ results v b, r.elapsed ≠ 0) :
    (¬ ((results v b).map (fun x => x.crc)).all
        (fun x => x == ((results v b).map (fun x => x.crc)).headD 0) →
      do_benchmarking_sweep size_mb t0 ((v, b) :: rest) results =
        Except.error (BenchError.checksumMismatch v)) ∧
    (results v b ≠ [] →
      ((results v b).map (fun x => x.crc)).all
        (fun x => x == ((results v b).map (fun x => x.crc)).headD 0) →
      ∃ row : Row,
        process_combination size_mb t0 v b (results v b) = Except.ok row ∧
        do_benchmarking_sweep size_mb t0 ((v, b) :: rest) results =
          (do_benchmarking_sweep size_mb t0 rest results).map
            (fun rows => row :: rows)) := by
  constructor
  · intro hneq
    exact do_benchmarking_sweep_cons_error size_mb t0 (v, b) rest results _
      (process_combination_mismatch size_mb t0 v b (results v b) hnz hneq)
  · intro hne heq
    refine ⟨_, process_combination_ok size_mb t0 v b (results v b) hne hnz heq, ?_⟩
    exact do_benchmarking_sweep_cons_ok size_mb t0 (v, b) rest results _
      (process_combination_ok size_mb t0 v b (results v b) hne hnz heq)

theorem claim_C3_witness :
    (∀ r ∈ ([⟨1, 0, 1⟩, ⟨2, 0, 1⟩] : List TaskResult), r.elapsed ≠ 0) ∧
    do_benchmarking_sweep 1 0 [("crc32", 0), ("adler32", 512)]
      (fun _ _ => [⟨1, 0, 1⟩, ⟨2, 0, 1⟩]) =
      Except.error (BenchError.checksumMismatch "crc32") := by
  constructor
  · decide
  · exact (claim_C3_mismatch_fatal 1 0 "crc32" 0 [("adler32", 512)]
      (fun _ _ => [⟨1, 0, 1⟩, ⟨2, 0, 1⟩]) (by decide)).1 (by decide)

/-- C4: `mean_and_stddev` computes the arithmetic mean and the population
standard deviation (division by N, not N - 1) of every non-empty sample
list; in particular it maps `[x]` to `(x, 0)`, `[x, x, x]` to `(x, 0)` and
`[0, 10]` to `(5, 5)`. -/
theorem claim_C4_mean_and_stddev :
    (∀ l : List ℝ, l ≠ [] →
      mean_and_stddev l = (spec_mean l, spec_population_stddev l)) ∧
    (∀ x : ℝ, mean_and_stddev [x] = (x, 0)) ∧
    (∀ x : ℝ, mean_and_stddev [x, x, x] = (x, 0)) ∧
    mean_and_stddev [(0 : ℝ), 10] = (5, 5) :=
  ⟨fun l _ => mean_and_stddev_spec l, mean_and_stddev_singleton,
    mean_and_stddev_triple, mean_and_stddev_zero_ten⟩

theorem claim_C4_witness :
    ([(3 : ℝ), 4] ≠ ([] : List ℝ)) ∧
    mean_and_stddev [(3 : ℝ), 4] =
      (spec_mean [3, 4], spec_population_stddev [3, 4]) ∧
    mean_and_stddev [(7 : ℝ)] = (7, 0) :=
  ⟨by simp, claim_C4_mean_and_stddev.1 [3, 4] (by simp),
    claim_C4_mean_and_stddev.2.1 7⟩

/-- C5: for every buffer D and chunk size C > 0, the chunked executor
partitions D into contiguous, non-overlapping, ascending slices of exactly C
bytes (slice i starts at byte i * C; only the final slice may be shorter,
and no slice is empty), their concatenation is D, and `get_checksum` threads
the running state through one sequential update per slice in that order
followed by a single `final` call. -/
theorem claim_C5_partition (D : List Nat) (C : Nat) (hC : 0 < C) :
    (∀ (i : Nat) (h : i < (chunker D C).length),
      (chunker D C)[i] = (D.drop (i * C)).take C) ∧
    (chunker D C).flatten = D ∧
    (∀ (i : Nat) (h : i + 1 < (chunker D C).length),
      ((chunker D C)[i]).length = C) ∧
    (∀ c ∈ chunker D C, c ≠ [] ∧ c.length ≤ C) ∧
    (∀ (v : String) (info : checksum_info), checksums_lookup v = some info →
      get_checksum C D v = some (info.final
        (List.foldl (fun crc block => info.method block crc) info.init
          (chunker D C)))) := by
  refine ⟨chunker_get C hC D, chunker_flatten D C hC, chunker_get_length C hC D,
    chunker_mem C hC D, ?_⟩
  intro v info hlook
  unfold get_checksum
  rw [hlook]

theorem claim_C5_witness :
    0 < 2 ∧ (chunker [1, 2, 3, 4, 5] 2).flatten = [1, 2, 3, 4, 5] :=
  ⟨by decide, (claim_C5_partition [1, 2, 3, 4, 5] 2 (by decide)).2.1⟩

/-- C6: for every registered algorithm and every chunk size (0 or positive),
`checksum_data` on an empty buffer returns the identity checksum
`final(init())` without error: the chunked path folds over no slices, and
the unchunked path `update(init(), empty)` yields the same value because
every registered update fixes the initial state on empty input. -/
theorem claim_C6_empty_buffer (v : String) (info : checksum_info)
    (hmem : (v, info) ∈ checksums) (C : Nat) :
    checksum_data [] C v = some (info.final info.init) := by
  simp only [checksums, List.mem_cons, List.mem_singleton, Prod.mk.injEq,
    List.not_mem_nil, or_false] at hmem
  rcases hmem with ⟨rfl, rfl⟩ | ⟨rfl, rfl⟩ | ⟨rfl, rfl⟩
  · exact checksum_data_empty_entry _ _ checksums_lookup_crc32 (crc32_nil 0) C
  · exact checksum_data_empty_entry _ _ checksums_lookup_crc32z (crc32_nil 0) C
  · exact checksum_data_empty_entry _ _ checksums_lookup_adler32 adler32_nil_zero C

theorem claim_C6_witness :
    ("crc32", crc32_entry) ∈ checksums ∧
    checksum_data [] 512 "crc32" = some (crc32_entry.final crc32_entry.init) :=
  ⟨List.mem_cons_self _ _,
    claim_C6_empty_buffer "crc32" crc32_entry (List.mem_cons_self _ _) 512⟩

/-- C7: the sweep iterates the cross-product with the outer loop over the
algorithms in registry iteration order (crc32, crc32z, adler32) and, per
algorithm, the inner chunk-size sequence is exactly the ascending powers of
two 512 = 2^9 through 1048576 = 2^20 followed by the sentinel 0 last. -/
theorem claim_C7_sweep_order :
    checksums.map (fun p => p.1) = ["crc32", "crc32z", "adler32"] ∧
    bufsize_values = [512, 1024, 2048, 4096, 8192, 16384, 32768, 65536,
      131072, 262144, 524288, 1048576, 0] ∧
    bufsize_values = ((List.range' 9 12).map (fun k => 2 ^ k)) ++ [0] ∧
    benchmark_combinations = (checksums.map (fun p => p.1)).flatMap
      (fun v => bufsize_values.map (fun b => (v, b))) :=
  ⟨rfl, by decide, by decide, rfl⟩

/-- C8 counterexample: requesting an algorithm name that is not in the
registry is not detected before buffer work — there is no configuration
check at all (argparse offers no algorithm-selection option) — and a lookup
of such a name fails only inside `checksum_data` itself, i.e. as a runtime
`KeyError` during the checksum computation, contradicting the claimed
startup-time detection. -/
theorem claim_C8_counterexample : checksum_data [0, 1] 0 "md5" = none := by
  decide

/-- C8 (amended): the CLI provides no way to request an algorithm by name;
the sweep iterates exactly the registered names, so every lookup performed
during the sweep succeeds and `checksum_data` never raises `KeyError` there;
an unregistered name would fail only at lookup time inside `checksum_data`
(a runtime error), not as a startup configuration error. -/
theorem claim_C8_amended (v : String) (b : Nat)
    (hmem : (v, b) ∈ benchmark_combinations) (D : List Nat) (C : Nat) :
    (∃ info : checksum_info, checksums_lookup v = some info) ∧
    (checksum_data D C v).isSome = true := by
  have hv : ∃ p ∈ checksums, p.1 = v := by
    simp only [benchmark_combinations, List.mem_flatMap, List.mem_map] at hmem
    obtain ⟨a, ha, b', hb', heq⟩ := hmem
    cases heq
    exact ha
  obtain ⟨p, hp, hpv⟩ := hv
  simp only [checksums, List.mem_cons, List.mem_singleton, List.not_mem_nil,
    or_false] at hp
  rcases hp with rfl | rfl | rfl <;> subst hpv
  · exact ⟨⟨crc32_entry, checksums_lookup_crc32⟩,
      checksum_data_isSome_entry _ _ checksums_lookup_crc32 D C⟩
  · exact ⟨⟨crc32z_entry, checksums_lookup_crc32z⟩,
      checksum_data_isSome_entry _ _ checksums_lookup_crc32z D C⟩
  · exact ⟨⟨adler32_entry, checksums_lookup_adler32⟩,
      checksum_data_isSome_entry _ _ checksums_lookup_adler32 D C⟩

theorem claim_C8_witness :
    ("crc32", 512) ∈ benchmark_combinations ∧
    (checksum_data [7] 512 "crc32").isSome = true := by
  constructor
  · decide
  · exact (claim_C8_amended "crc32" 512 (by decide) [7] 512).2

/-- C9 counterexample: the configuration layer does not enforce a task count
of at least 1 — `-n 0` parses to 0 — and the resulting 0-task serial run
reaches the driver and dies there with the `IndexError` of `crc = crcs[0]`
(line 157), not with any configuration error. -/
theorem claim_C9_counterexample :
    parse_number_tasks (some 0) = 0 ∧
    do_benchmarking_sweep 1 0 [("crc32", 0)]
      (fun v b => serial_run [] v b (fun _ => 0) (fun _ => 1)
        (parse_number_tasks (some 0))) =
      Except.error BenchError.indexError := by
  constructor
  · rfl
  · exact do_benchmarking_sweep_cons_error 1 0 ("crc32", 0) [] _
      BenchError.indexError (process_combination_empty 1 0 "crc32" 0)

/-- C9 (amended): the configuration only defaults the task count to 1, with
no minimum enforced; for every task count n ≥ 1 the serial run produces n
(that is, a non-zero number of) task results, and every sample list a
successful combination hands to `mean_and_stddev` has exactly one sample per
task result — in particular it is non-empty, so the divisions by the sample
count are never by zero; a 0-task run instead fails with `IndexError`
before any statistics call. -/
theorem claim_C9_amended :
    parse_number_tasks none = 1 ∧
    (∀ (n : Int), 1 ≤ n → ∀ (data : List Nat) (v : String) (b : Nat)
      (starts elapseds : Nat → ℚ),
      (serial_run data v b starts elapseds n).length = n.toNat ∧ n.toNat ≠ 0) ∧
    (∀ (size_mb t0 : ℚ) (v : String) (b : Nat) (res : List TaskResult)
      (row : Row),
      process_combination size_mb t0 v b res = Except.ok row →
      res ≠ [] ∧ row.times.length = res.length ∧
      row.setup_times.length = res.length ∧ row.speeds.length = res.length ∧
      row.time_stats = mean_and_stddev (ratsToReals row.times) ∧
      row.setup_stats = mean_and_stddev (ratsToReals row.setup_times) ∧
      row.speed_stats = mean_and_stddev (ratsToReals row.speeds)) := by
  refine ⟨rfl, ?_, ?_⟩
  · intro n hn data v b starts elapseds
    constructor
    · simp [serial_run, serial_pool_map]
    · omega
  · intro size_mb t0 v b res row h
    rcases res with _ | ⟨r, rs⟩
    · rw [process_combination_empty] at h
      exact absurd h (by simp)
    · simp only [process_combination] at h
      by_cases h1 : (((r :: rs).map (fun x => x.elapsed)).any
          (fun t => decide (t = 0))) = true
      · rw [if_pos h1] at h
        exact absurd h (by simp)
      · rw [if_neg h1] at h
        by_cases h2 : ¬ (((r :: rs).map (fun x => x.crc)).all
            (fun x => x == ((r :: rs).map (fun x => x.crc)).headD 0) = true)
        · rw [if_pos h2] at h
          exact absurd h (by simp)
        · rw [if_neg h2] at h
          simp only [List.map_cons] at h
          injection h with hrec
          subst hrec
          refine ⟨by simp, by simp, by simp, by simp, rfl, rfl, rfl⟩

theorem claim_C9_witness :
    (1 : Int) ≤ 2 ∧
    (serial_run [] "crc32" 0 (fun _ => 0) (fun _ => 1) 2).length =
      (2 : Int).toNat :=
  ⟨by decide,
    (claim_C9_amended.2.1 2 (by decide) [] "crc32" 0 (fun _ => 0)
      (fun _ => 1)).1⟩

/-- C10: any task whose measured elapsed time is exactly 0 makes the
throughput computation `size_mb / t` (line 153) divide by zero with no
guard: the combination — and with it the whole run — fails with the division
error before the checksum-consistency check and the statistics of that
combination are reached. -/
theorem claim_C10_zero_elapsed (size_mb t0 : ℚ) (v : String) (b : Nat)
    (rest : List (String × Nat)) (results : String → Nat → List TaskResult)
    (hz : ∃ r ∈ results v b, r.elapsed = 0) :
    process_combination size_mb t0 v b (results v b) =
      Except.error BenchError.zeroDivision ∧
    do_benchmarking_sweep size_mb t0 ((v, b) :: rest) results =
      Except.error BenchError.zeroDivision := by
  have h := process_combination_zero_time size_mb t0 v b (results v b) hz
  exact ⟨h, do_benchmarking_sweep_cons_error size_mb t0 (v, b) rest results _ h⟩

theorem claim_C10_witness :
    (∃ r ∈ ([⟨1, 0, 0⟩, ⟨2, 0, 1⟩] : List TaskResult), r.elapsed = 0) ∧
    do_benchmarking_sweep 1 0 [("crc32", 512), ("adler32", 0)]
      (fun _ _ => [⟨1, 0, 0⟩, ⟨2, 0, 1⟩]) =
      Except.error BenchError.zeroDivision := by
  constructor
  · decide
  · exact (claim_C10_zero_elapsed 1 0 "crc32" 512 [("adler32", 0)]
      (fun _ _ => [⟨1, 0, 0⟩, ⟨2, 0, 1⟩]) (by decide)).2
